import Mathlib

/-!
Verification of the playlist scheduling and asset-rotation engine of the
Anthias digital-signage viewer (`viewer.py`).

The embedding models the `Scheduler` class, `generate_asset_list`, the
command dispatch table and the mime-type dispatch of `asset_loop` as pure
Lean functions.  External inputs that the Python code reads from the world
(the asset store contents, the current UTC time, the database file's
modification time, the `shuffle_playlist` setting, and the outcome of
`random.shuffle`) are collected in an `Env` record and passed explicitly;
a call to a scheduler method at one instant corresponds to applying the
Lean function to one `Env` value.  Timestamps (Python `datetime` values
and file mtimes) are modelled as integers, which preserves their total
order, the only structure the code uses.  Python `%` on possibly negative
ints is `Int.emod`.
-/

/-- Media asset record, with the scheduling metadata fields of the store that
`viewer.py` reads (`asset_id`, `mimetype`, active-window dates, the
`is_processing` flag used by the override path, and the playback fields). -/
structure Asset where
  asset_id : String
  name : String
  uri : String
  mimetype : String
  start_date : Int
  end_date : Int
  duration : Int
  is_processing : Nat
  skip_asset_check : Bool
deriving Repr, DecidableEq

/-- External world as seen by one scheduler call: the asset store contents,
the current time (`datetime.utcnow()`), the database file modification time
(`get_db_mtime`), the `settings['shuffle_playlist']` flag, and the
permutation produced by `random.shuffle` when it is invoked. -/
structure Env where
  store : List Asset
  time : Int
  db_mtime : Int
  shuffle_playlist : Bool
  perm : List Asset → List Asset

/-- Modelled from the spec: `assets_helper.is_active` is defined in
`lib/assets_helper.py`, which is not part of this tree.  The spec states the
invariant: an asset is active iff the current time lies in the window
[start, end) and the processing-state flag is false. -/
def is_active (a : Asset) (t : Int) : Bool :=
  a.start_date ≤ t && t < a.end_date && a.is_processing == 0

/-- Modelled from the spec: `get_specific_asset` calls
`assets_helper.read(db_conn, asset_id)` from `lib/assets_helper.py`, which is
not part of this tree; the spec gives the store adapter operation
`getAsset(id) → Asset|None`, a lookup of the asset with that id. -/
def get_specific_asset (env : Env) (asset_id : String) : Option Asset :=
  env.store.find? (fun a => a.asset_id == asset_id)

/-- Deadline contribution of one asset, from `generate_asset_list`:
`asset['end_date'] if assets_helper.is_active(asset) else asset['start_date']`. -/
def deadline_of (t : Int) (a : Asset) : Int :=
  if is_active a t then a.end_date else a.start_date

/-- Embedding of `generate_asset_list` (`viewer.py` lines 306-322): map every
stored asset to its deadline, filter the active ones into the playlist, take
`sorted(deadlines)[0]` when non-empty as the overall deadline, and shuffle the
playlist when `settings['shuffle_playlist']` is set (the random permutation is
`env.perm`). -/
def generate_asset_list (env : Env) : List Asset × Option Int :=
  let assets := env.store
  let deadlines := assets.map (deadline_of env.time)
  let playlist0 := assets.filter (fun a => is_active a env.time)
  let deadline := if 0 < deadlines.length
    then (List.insertionSort (· ≤ ·) deadlines).head?
    else none
  let playlist := if env.shuffle_playlist then env.perm playlist0 else playlist0
  (playlist, deadline)

/-- Mutable state of the `Scheduler` object (`viewer.py` lines 222-298).
`index` is a Python int, so it is modelled as `Int` (all the arithmetic on it
is `%` by the playlist length). -/
structure SchedulerState where
  assets : List Asset
  counter : Nat
  current_asset_id : Option String
  deadline : Option Int
  extra_asset : Option String
  index : Int
  reverse : Bool
  last_update_db_mtime : Int
deriving Repr, DecidableEq

/-- Embedding of `Scheduler.update_playlist` (lines 278-291): record the db
mtime, regenerate; when the regenerated playlist and deadline both equal the
current ones, keep the old state (minus the mtime update); otherwise adopt
them, reset the repeat counter, and clamp the position
(`self.index % len(self.assets) if self.assets else 0`). -/
def update_playlist (env : Env) (s : SchedulerState) : SchedulerState :=
  let s0 := { s with last_update_db_mtime := env.db_mtime }
  let gen := generate_asset_list env
  if gen.1 = s0.assets ∧ gen.2 = s0.deadline then
    s0
  else
    { s0 with
      assets := gen.1
      deadline := gen.2
      counter := 0
      index := if gen.1.isEmpty then 0 else s0.index % (gen.1.length : Int) }

/-- Embedding of `Scheduler.refresh_playlist` (lines 266-276): regenerate when
the database was modified since the last update, else when shuffling and the
repeat counter reached 5, else when the deadline is set and has passed;
otherwise leave the state untouched.  (`self.deadline and self.deadline <=
time_cur`: a `datetime` is truthy, so the first conjunct is a None test.) -/
def refresh_playlist (env : Env) (s : SchedulerState) : SchedulerState :=
  if s.last_update_db_mtime < env.db_mtime then
    update_playlist env s
  else if env.shuffle_playlist && decide (5 ≤ s.counter) then
    update_playlist env s
  else
    match s.deadline with
    | some d => if d ≤ env.time then update_playlist env s else s
    | none => s

/-- Rotation step of `Scheduler.get_next_asset` after the refresh (lines
248-264): empty playlist returns `none`; a pending reverse request returns the
asset two slots back and steps the position back one; otherwise the asset at
the current position is returned and the position advances; when shuffling and
the new position is 0 the repeat counter is incremented.  The playlist access
`self.assets[idx]` is modelled with `List.getElem?`; the `none` fallback of
that access corresponds to a Python `IndexError` and is proved unreachable. -/
def advance (shuffle : Bool) (s : SchedulerState) : SchedulerState × Option Asset :=
  if s.assets.isEmpty then
    ({ s with current_asset_id := none }, none)
  else
    let n : Int := s.assets.length
    let idx : Int := if s.reverse then (s.index - 2) % n else s.index
    let s1 :=
      if s.reverse then
        { s with index := (s.index - 1) % n, reverse := false }
      else
        { s with index := (s.index + 1) % n }
    let s2 := if shuffle && s1.index == (0 : Int) then { s1 with counter := s1.counter + 1 } else s1
    match s2.assets[idx.toNat]? with
    | some a => ({ s2 with current_asset_id := some a.asset_id }, some a)
    | none => ({ s2 with current_asset_id := none }, none)

/-- Normal selection path of `Scheduler.get_next_asset`: refresh, then rotate. -/
def normal_next (env : Env) (s : SchedulerState) : SchedulerState × Option Asset :=
  advance env.shuffle_playlist (refresh_playlist env s)

/-- Embedding of `Scheduler.get_next_asset` (lines 234-264): a pending
one-shot override is looked up first; if found and not processing it is
returned directly (recording its id as current and clearing the override);
otherwise the override is cleared and control falls through to the normal
refresh-and-rotate path. -/
def get_next_asset (env : Env) (s : SchedulerState) : SchedulerState × Option Asset :=
  match s.extra_asset with
  | some eid =>
    match get_specific_asset env eid with
    | some a =>
      if a.is_processing == 0 then
        ({ s with current_asset_id := some eid, extra_asset := none }, some a)
      else
        normal_next env { s with extra_asset := none }
    | none => normal_next env { s with extra_asset := none }
  | none => normal_next env s

/-- State written by `Scheduler.__init__` (lines 223-231) before the initial
`update_playlist` call; `last_update_db_mtime` is first assigned inside
`update_playlist`, so its value here is irrelevant (0 is used). -/
def initState : SchedulerState :=
  { assets := []
    counter := 0
    current_asset_id := none
    deadline := none
    extra_asset := none
    index := 0
    reverse := false
    last_update_db_mtime := 0 }

/-- Embedding of `Scheduler.__init__`: field initialisation followed by
`update_playlist`. -/
def scheduler_init (env : Env) : SchedulerState :=
  update_playlist env initState

/-- Iterated calls of `get_next_asset` against a fixed environment, collecting
the returned assets in call order. -/
def run_sched (env : Env) (s : SchedulerState) : Nat → SchedulerState × List (Option Asset)
  | 0 => (s, [])
  | k + 1 =>
    let step := get_next_asset env s
    let rest := run_sched env step.1 k
    (rest.1, step.2 :: rest.2)

/-- Handler tags of the `commands` dispatch dict (`viewer.py` lines 181-192),
one per entry. -/
inductive Command where
  | next
  | previous
  | asset
  | reload
  | stop
  | play
  | setup_wifi
  | show_splash
  | unknown
  | current_asset_id
deriving Repr, DecidableEq

/-- The `commands` dict of `viewer.py` (lines 181-192) as an association list
from command string to handler tag. -/
def commands : List (String × Command) :=
  [("next", Command.next),
   ("previous", Command.previous),
   ("asset", Command.asset),
   ("reload", Command.reload),
   ("stop", Command.stop),
   ("play", Command.play),
   ("setup_wifi", Command.setup_wifi),
   ("show_splash", Command.show_splash),
   ("unknown", Command.unknown),
   ("current_asset_id", Command.current_asset_id)]

/-- Dispatch line of `ZmqSubscriber.run` (line 219):
`commands.get(command, commands.get('unknown'))(parameter)` — the handler for
the command string, defaulting to the `'unknown'` entry (`command_not_found`). -/
def dispatch_command (cmd : String) : Command :=
  (commands.lookup cmd).getD Command.unknown

/-- Viewer state mutated by the command handlers: the scheduler plus the
`loop_is_stopped` global. -/
structure ViewerState where
  sched : SchedulerState
  loop_is_stopped : Bool
deriving Repr, DecidableEq

/-- State effect of `skip_asset` (lines 101-104): sets the scheduler's reverse
flag when `back is True`; the SIGUSR1 broadcast interrupts the current sleep
and does not change this state. -/
def skip_asset (back : Bool) (st : ViewerState) : ViewerState :=
  if back then { st with sched := { st.sched with reverse := true } } else st

/-- State effect of `navigate_to_asset` (lines 107-109): stores the asset id as
the scheduler's one-shot override. -/
def navigate_to_asset (asset_id : Option String) (st : ViewerState) : ViewerState :=
  { st with sched := { st.sched with extra_asset := asset_id } }

/-- State effect of `stop_loop` (lines 112-116) on the modelled state: sets
`loop_is_stopped` (the db connection reset is outside the model). -/
def stop_loop (st : ViewerState) : ViewerState :=
  { st with loop_is_stopped := true }

/-- State effect of `play_loop` (lines 119-121): clears `loop_is_stopped`. -/
def play_loop (st : ViewerState) : ViewerState :=
  { st with loop_is_stopped := false }

/-- State effect of `command_not_found` (lines 124-125): it only logs. -/
def command_not_found (st : ViewerState) : ViewerState :=
  st

/-- State effects of the command handlers of the `commands` dict.  `reload`
(settings), `current_asset_id` (a read-only report) and `setup_wifi` (hotspot
page rendering) do not mutate the modelled state; `show_splash` ends with
`play_loop()`. -/
def run_command (c : Command) (parameter : Option String) (st : ViewerState) : ViewerState :=
  match c with
  | Command.next => skip_asset false st
  | Command.previous => skip_asset true st
  | Command.asset => navigate_to_asset parameter st
  | Command.reload => st
  | Command.stop => stop_loop st
  | Command.play => play_loop st
  | Command.setup_wifi => st
  | Command.show_splash => play_loop st
  | Command.unknown => command_not_found st
  | Command.current_asset_id => st

/-- Python substring test `needle in hay` on strings. -/
def hasSubstr (hay needle : String) : Bool :=
  decide (needle.toList <:+: hay.toList)

/-- Python truthiness of a string literal: non-empty strings are true. -/
def pyTruthyStr (s : String) : Bool :=
  s ≠ ""

/-- Render request chosen by the mime dispatch of `asset_loop` (`viewer.py`
lines 410-417). -/
inductive RenderAction where
  | image
  | webpage
  | video
  | error_skip
deriving Repr, DecidableEq

/-- Embedding of the mime dispatch of `asset_loop` (lines 410-417).  The third
guard is the literal Python expression `'video' or 'streaming' in mime`, which
evaluates the truthiness of the string `'video'` or-ed with the membership
test, exactly as transcribed here. -/
def dispatch_mime (mime : String) : RenderAction :=
  if hasSubstr mime "image" then RenderAction.image
  else if hasSubstr mime "web" then RenderAction.webpage
  else if pyTruthyStr "video" || hasSubstr mime "streaming" then RenderAction.video
  else RenderAction.error_skip

/-- Bounds invariant of the scheduler position: the position is a valid index
of the playlist whenever the playlist is non-empty, and 0 when it is empty. -/
def SchedInv (s : SchedulerState) : Prop :=
  (s.assets = [] → s.index = 0) ∧
  (s.assets ≠ [] → 0 ≤ s.index ∧ s.index < s.assets.length)

/-- Concrete asset fixture: active at time 0, window [-10, 100). -/
def assetA : Asset :=
  { asset_id := "A", name := "A", uri := "uA", mimetype := "image/png",
    start_date := -10, end_date := 100, duration := 5, is_processing := 0,
    skip_asset_check := false }

/-- Concrete asset fixture: active at time 0, window [-10, 100). -/
def assetB : Asset :=
  { assetA with asset_id := "B", name := "B", uri := "uB", mimetype := "text/html;web" }

/-- Concrete asset fixture: inactive at time 0, window [50, 60). -/
def assetC : Asset :=
  { assetA with asset_id := "C", start_date := 50, end_date := 60 }

/-- Concrete asset fixture: window already over at time 0 ([-10, 0)). -/
def assetEnded : Asset :=
  { assetA with asset_id := "E", start_date := -10, end_date := 0 }

/-- Concrete environment fixture: three-asset store at time 0, shuffle off. -/
def envNoShuffle : Env :=
  { store := [assetA, assetB, assetC], time := 0, db_mtime := 0,
    shuffle_playlist := false, perm := id }

/-- Concrete environment fixture: empty store, shuffle off. -/
def envEmpty : Env :=
  { store := [], time := 0, db_mtime := 0, shuffle_playlist := false, perm := id }

/-- Concrete environment fixture: one-asset store, shuffle on, with the
identity permutation as the shuffle outcome. -/
def envShuffle : Env :=
  { store := [assetA], time := 0, db_mtime := 0, shuffle_playlist := true, perm := id }

/-- Concrete scheduler-state fixture: two-asset playlist at position 0, no
pending flags, no deadline, mtime up to date. -/
def stateAB : SchedulerState :=
  { assets := [assetA, assetB], counter := 0, current_asset_id := none,
    deadline := none, extra_asset := none, index := 0, reverse := false,
    last_update_db_mtime := 0 }

/-- Concrete scheduler-state fixture: `stateAB` with a pending override for
asset id "A". -/
def stateOverride : SchedulerState :=
  { stateAB with extra_asset := some "A" }

/-- Concrete scheduler-state fixture: `stateAB` at position 1 with a pending
reverse request (the previous call returned position 0). -/
def stateRev : SchedulerState :=
  { stateAB with index := 1, reverse := true }

/-- Concrete scheduler-state fixture: one-asset playlist at position 0 for the
shuffle cycle count. -/
def stateA1 : SchedulerState :=
  { stateAB with assets := [assetA] }

/-- Concrete scheduler-state fixture: a playlist holding only an asset whose
window has ended, with a deadline that has passed. -/
def stateEnded : SchedulerState :=
  { stateAB with assets := [assetEnded], deadline := some (-1) }

instance : Std.Antisymm (fun (a b : Int) => a ≤ b) :=
  ⟨fun {_ _} h1 h2 => le_antisymm h1 h2⟩

/-- Characterisation of `List.min?` over integers. -/
lemma int_min?_eq_some_iff {xs : List Int} {a : Int} :
    xs.min? = some a ↔ a ∈ xs ∧ ∀ b ∈ xs, a ≤ b :=
  List.min?_eq_some_iff (fun a => le_refl a) (fun a b => min_choice a b)
    (fun _ _ _ => le_min_iff)

/-- Head of the ascending insertion sort of an integer list is its minimum. -/
lemma head?_insertionSort_eq_min? (l : List Int) :
    (List.insertionSort (· ≤ ·) l).head? = l.min? := by
  cases hl : l with
  | nil => simp
  | cons a t =>
    have hperm := List.perm_insertionSort (· ≤ ·) (a :: t)
    have hsorted := List.sorted_insertionSort (· ≤ ·) (a :: t)
    cases hs : List.insertionSort (· ≤ ·) (a :: t) with
    | nil =>
      exfalso
      have := hperm.length_eq
      rw [hs] at this
      simp at this
    | cons b u =>
      rw [hs] at hperm hsorted
      have hbmem : b ∈ a :: t := hperm.mem_iff.mp (List.mem_cons_self b u)
      have hble : ∀ c ∈ a :: t, b ≤ c := by
        intro c hc
        have hc2 : c ∈ b :: u := hperm.symm.mem_iff.mp hc
        rcases List.mem_cons.mp hc2 with h | h
        · exact le_of_eq h.symm
        · exact List.rel_of_sorted_cons hsorted c h
      have : (a :: t).min? = some b := int_min?_eq_some_iff.mpr ⟨hbmem, hble⟩
      rw [this, List.head?_cons]

/-- Keys-miss lemma for association-list lookup. -/
lemma lookup_eq_none_of_not_mem_keys {β : Type} (l : List (String × β)) (k : String)
    (h : k ∉ l.map Prod.fst) : l.lookup k = none := by
  induction l with
  | nil => rfl
  | cons p t ih =>
    obtain ⟨k0, v⟩ := p
    simp only [List.map_cons, List.mem_cons] at h
    push_neg at h
    have hk : (k == k0) = false := by
      simpa using h.1
    simp [List.lookup, hk, ih h.2]

/-- C2: if `generate_asset_list` reproduces the current playlist and deadline,
then `update_playlist` (and hence a regenerating `refresh_playlist`) leaves
the position index and the repeat counter unchanged. -/
theorem c2_idempotent_regeneration (env : Env) (s : SchedulerState)
    (h : generate_asset_list env = (s.assets, s.deadline)) :
    (update_playlist env s).index = s.index ∧
    (update_playlist env s).counter = s.counter ∧
    (refresh_playlist env s).index = s.index ∧
    (refresh_playlist env s).counter = s.counter := by
  have hu : update_playlist env s = { s with last_update_db_mtime := env.db_mtime } := by
    unfold update_playlist
    rw [h]
    simp
  have hr : refresh_playlist env s = s ∨ refresh_playlist env s = update_playlist env s := by
    unfold refresh_playlist
    repeat' split
    all_goals first
    | exact Or.inl rfl
    | exact Or.inr rfl
  refine ⟨by rw [hu], by rw [hu], ?_, ?_⟩
  · rcases hr with hr | hr
    · rw [hr]
    · rw [hr, hu]
  · rcases hr with hr | hr
    · rw [hr]
    · rw [hr, hu]

/-- Witness for C2 at the empty store and the freshly initialised state. -/
theorem c2_witness :
    (update_playlist envEmpty initState).index = initState.index ∧
    (update_playlist envEmpty initState).counter = initState.counter ∧
    (refresh_playlist envEmpty initState).index = initState.index ∧
    (refresh_playlist envEmpty initState).counter = initState.counter :=
  c2_idempotent_regeneration envEmpty initState rfl

/-- C4: a pending override that is found and not processing is returned on the
very next call with the position and counter untouched (only the current id is
recorded and the override cleared); a failed lookup or a processing asset
clears the override and falls through to normal selection. -/
theorem c4_override_precedence (env : Env) (s : SchedulerState) (eid : String)
    (h : s.extra_asset = some eid) :
    (∀ a, get_specific_asset env eid = some a → a.is_processing = 0 →
      get_next_asset env s =
        ({ s with current_asset_id := some eid, extra_asset := none }, some a)) ∧
    (get_specific_asset env eid = none →
      get_next_asset env s = normal_next env { s with extra_asset := none }) ∧
    (∀ a, get_specific_asset env eid = some a → a.is_processing ≠ 0 →
      get_next_asset env s = normal_next env { s with extra_asset := none }) := by
  refine ⟨fun a ha hp => ?_, fun hn => ?_, fun a ha hp => ?_⟩
  · simp only [get_next_asset, h, ha]
    simp [hp]
  · simp only [get_next_asset, h, hn]
  · have hp2 : (a.is_processing == 0) = false := by
      simpa using hp
    simp only [get_next_asset, h, ha, hp2]
    simp

/-- Witness for C4: the pending override "A" is served directly. -/
theorem c4_witness :
    get_next_asset envNoShuffle stateOverride =
      ({ stateOverride with current_asset_id := some "A", extra_asset := none }, some assetA) :=
  (c4_override_precedence envNoShuffle stateOverride "A" rfl).1 assetA rfl rfl

/-- C8 (code bug): the guard `'video' or 'streaming' in mime` is always true,
so a mime type that is none of the known kinds is dispatched to the video
player, and the unknown-mime error branch is unreachable for every mime. -/
theorem c8_unknown_mime_goes_to_video :
    dispatch_mime "audio/mpeg" = RenderAction.video ∧
    ∀ mime, dispatch_mime mime ≠ RenderAction.error_skip := by
  constructor
  · decide
  · intro mime
    unfold dispatch_mime
    have hv : (pyTruthyStr "video" || hasSubstr mime "streaming") = true := by
      have h0 : pyTruthyStr "video" = true := by decide
      simp [h0]
    split
    · simp
    · split
      · simp
      · simp [hv]

/-- C9 counterexample: `setup_wifi` is not among the seven commands the claim
lists, yet it dispatches to its own handler, not the unknown-command one. -/
theorem c9_counterexample :
    "setup_wifi" ∉ ["next", "previous", "asset", "reload", "stop", "play", "current_asset_id"] ∧
    dispatch_command "setup_wifi" = Command.setup_wifi ∧
    Command.setup_wifi ≠ Command.unknown := by
  decide

/-- C9 (amended): a command string that is not a key of the `commands` dict
(`next`, `previous`, `asset`, `reload`, `stop`, `play`, `setup_wifi`,
`show_splash`, `unknown`, `current_asset_id`) dispatches to the
unknown-command handler, which logs and performs no state mutation. -/
theorem c9_unknown_command_is_noop (cmd : String)
    (h : cmd ∉ commands.map Prod.fst) :
    dispatch_command cmd = Command.unknown ∧
    ∀ p st, run_command (dispatch_command cmd) p st = st := by
  have hl : commands.lookup cmd = none := lookup_eq_none_of_not_mem_keys commands cmd h
  have hd : dispatch_command cmd = Command.unknown := by
    simp [dispatch_command, hl]
  exact ⟨hd, fun p st => by rw [hd]; rfl⟩

/-- Witness for C9 at the unrecognised command string "foo". -/
theorem c9_witness :
    dispatch_command "foo" = Command.unknown ∧
    run_command (dispatch_command "foo") none { sched := stateAB, loop_is_stopped := false } =
      { sched := stateAB, loop_is_stopped := false } := by
  have h := c9_unknown_command_is_noop "foo" (by decide)
  exact ⟨h.1, h.2 none _⟩

/-- C6: `generate_asset_list` returns as deadline the minimum over all stored
assets (active or not) of the per-asset deadline term, `none` on an empty
store; and the playlist is the active assets in store order, permuted by the
shuffle outcome when shuffle is configured. -/
theorem c6_generate_asset_list (env : Env) :
    (generate_asset_list env).2 = (env.store.map (deadline_of env.time)).min? ∧
    (env.shuffle_playlist = false →
      (generate_asset_list env).1 = env.store.filter (fun a => is_active a env.time)) ∧
    (env.shuffle_playlist = true →
      (generate_asset_list env).1 = env.perm (env.store.filter (fun a => is_active a env.time))) ∧
    ((∀ l, (env.perm l).Perm l) →
      ((generate_asset_list env).1).Perm (env.store.filter (fun a => is_active a env.time))) := by
  have hno : env.shuffle_playlist = false →
      (generate_asset_list env).1 = env.store.filter (fun a => is_active a env.time) := by
    intro hs
    simp only [generate_asset_list, hs]
    simp
  have hyes : env.shuffle_playlist = true →
      (generate_asset_list env).1 = env.perm (env.store.filter (fun a => is_active a env.time)) := by
    intro hs
    simp only [generate_asset_list, hs]
    simp
  refine ⟨?_, hno, hyes, ?_⟩
  · simp only [generate_asset_list]
    by_cases h : 0 < (env.store.map (deadline_of env.time)).length
    · rw [if_pos h, head?_insertionSort_eq_min?]
    · rw [if_neg h]
      have hmt : env.store.map (deadline_of env.time) = [] := by
        cases hm : env.store.map (deadline_of env.time) with
        | nil => rfl
        | cons x xs => rw [hm] at h; simp at h
      rw [hmt]
      rfl
  · intro hperm
    cases hs : env.shuffle_playlist with
    | false => rw [hno hs]
    | true =>
      rw [hyes hs]
      exact hperm _

/-- Witness for C6 at a one-asset store with shuffle configured and the
identity permutation as the shuffle outcome. -/
theorem c6_witness :
    (generate_asset_list envShuffle).2 = (envShuffle.store.map (deadline_of envShuffle.time)).min? ∧
    ((generate_asset_list envShuffle).1).Perm
      (envShuffle.store.filter (fun a => is_active a envShuffle.time)) := by
  have h := c6_generate_asset_list envShuffle
  exact ⟨h.1, h.2.2.2 (fun l => List.Perm.refl l)⟩

/-- Forward rotation step of `advance`: with no reverse pending and the
current position readable, the asset at the position is returned, the position
advances by one modulo the length, and the counter is incremented exactly when
shuffling and the new position is 0. -/
lemma advance_forward (sh : Bool) (s : SchedulerState) (a : Asset)
    (hne : s.assets.isEmpty = false) (hrev : s.reverse = false)
    (hget : s.assets[s.index.toNat]? = some a) :
    advance sh s =
      ({ s with
          index := (s.index + 1) % (s.assets.length : Int),
          counter := if sh && ((s.index + 1) % (s.assets.length : Int)) == 0
                     then s.counter + 1 else s.counter,
          current_asset_id := some a.asset_id }, some a) := by
  unfold advance
  simp only [hne, Bool.false_eq_true, if_false, hrev, if_true]
  by_cases hc : (sh && ((s.index + 1) % ((s.assets.length : Int))) == 0) = true
  · simp only [hc, if_true, hget]
  · simp only [eq_false_of_ne_true hc, Bool.false_eq_true, if_false, hget]

/-- Reverse rotation step of `advance`: with a reverse request pending, the
asset two slots back is returned, the position steps back one modulo the
length, the reverse flag is cleared, and the counter is incremented exactly
when shuffling and the new position is 0. -/
lemma advance_reverse (sh : Bool) (s : SchedulerState) (a : Asset)
    (hne : s.assets.isEmpty = false) (hrev : s.reverse = true)
    (hget : s.assets[((s.index - 2) % (s.assets.length : Int)).toNat]? = some a) :
    advance sh s =
      ({ s with
          index := (s.index - 1) % (s.assets.length : Int),
          reverse := false,
          counter := if sh && ((s.index - 1) % (s.assets.length : Int)) == 0
                     then s.counter + 1 else s.counter,
          current_asset_id := some a.asset_id }, some a) := by
  unfold advance
  simp only [hne, Bool.false_eq_true, if_false, hrev, if_true]
  by_cases hc : (sh && ((s.index - 1) % ((s.assets.length : Int))) == 0) = true
  · simp only [hc, if_true, hget]
  · simp only [eq_false_of_ne_true hc, Bool.false_eq_true, if_false, hget]

/-- C3: with a pending reverse request and a quiescent refresh, when the
previous call returned position p (so the stored position is p+1 mod n), the
next call returns the asset at position p-1 mod n — not p+1 mod n — and clears
the reverse flag. -/
theorem c3_reverse_semantics (env : Env) (s : SchedulerState) (p : Nat)
    (hq : refresh_playlist env s = s)
    (hextra : s.extra_asset = none)
    (hrev : s.reverse = true)
    (hp : p < s.assets.length)
    (hidx : s.index = ((p : Int) + 1) % (s.assets.length : Int)) :
    (∃ a, s.assets[(((p : Int) - 1) % (s.assets.length : Int)).toNat]? = some a ∧
      (get_next_asset env s).2 = some a) ∧
    (get_next_asset env s).1.reverse = false := by
  have hne : s.assets ≠ [] := by
    intro h0
    rw [h0] at hp
    simp at hp
  have hnotempty : s.assets.isEmpty = false := by
    simpa [List.isEmpty_iff] using hne
  have hn0 : (0 : Int) < (s.assets.length : Int) := by
    exact_mod_cast List.length_pos.mpr hne
  have harith : ((((p : Int) + 1) % (s.assets.length : Int)) - 2) % (s.assets.length : Int)
      = ((p : Int) - 1) % (s.assets.length : Int) := by
    conv_lhs => rw [Int.sub_emod, Int.emod_emod_of_dvd _ dvd_rfl, ← Int.sub_emod]
    congr 1
    ring
  have h0 : 0 ≤ ((p : Int) - 1) % (s.assets.length : Int) :=
    Int.emod_nonneg _ (ne_of_gt hn0)
  have hj : ((((p : Int) - 1) % (s.assets.length : Int))).toNat < s.assets.length := by
    rw [Int.toNat_lt h0]
    exact Int.emod_lt_of_pos _ hn0
  obtain ⟨a, ha⟩ : ∃ x, s.assets[(((p : Int) - 1) % (s.assets.length : Int)).toNat]? = some x :=
    ⟨_, List.getElem?_eq_getElem hj⟩
  have hget : s.assets[((s.index - 2) % (s.assets.length : Int)).toNat]? = some a := by
    rw [hidx, harith]
    exact ha
  have hmain : get_next_asset env s = advance env.shuffle_playlist s := by
    simp only [get_next_asset, hextra, normal_next, hq]
  rw [hmain, advance_reverse env.shuffle_playlist s a hnotempty hrev hget]
  exact ⟨⟨a, ha, rfl⟩, rfl⟩

/-- Witness for C3: previous call returned position 0 of a two-asset playlist,
a reverse request makes the next call return position 1 (the wrap-around of
0 − 1 mod 2) and clears the flag. -/
theorem c3_witness :
    (∃ a, stateRev.assets[((((0 : Nat) : Int) - 1) % (stateRev.assets.length : Int)).toNat]? = some a ∧
      (get_next_asset envNoShuffle stateRev).2 = some a) ∧
    (get_next_asset envNoShuffle stateRev).1.reverse = false :=
  c3_reverse_semantics envNoShuffle stateRev 0 rfl rfl rfl (by decide) (by decide)

/-- Case analysis of `update_playlist`: the playlist and deadline always end up
equal to the generated ones, the stored mtime is recorded, and the whole state
is either the kept old state or the adopted regeneration. -/
lemma update_playlist_eq (env : Env) (s : SchedulerState) :
    (update_playlist env s).assets = (generate_asset_list env).1 ∧
    (update_playlist env s).deadline = (generate_asset_list env).2 ∧
    (update_playlist env s).last_update_db_mtime = env.db_mtime ∧
    (update_playlist env s = { s with last_update_db_mtime := env.db_mtime } ∨
     update_playlist env s =
       { s with last_update_db_mtime := env.db_mtime,
                assets := (generate_asset_list env).1,
                deadline := (generate_asset_list env).2,
                counter := 0,
                index := if (generate_asset_list env).1.isEmpty then 0
                         else s.index % ((generate_asset_list env).1.length : Int) }) := by
  by_cases hc : (generate_asset_list env).1 = s.assets ∧ (generate_asset_list env).2 = s.deadline
  · have he : update_playlist env s = { s with last_update_db_mtime := env.db_mtime } := by
      simp only [update_playlist]
      rw [if_pos hc]
    rw [he]
    exact ⟨hc.1.symm, hc.2.symm, rfl, Or.inl rfl⟩
  · have he : update_playlist env s =
        { s with last_update_db_mtime := env.db_mtime,
                 assets := (generate_asset_list env).1,
                 deadline := (generate_asset_list env).2,
                 counter := 0,
                 index := if (generate_asset_list env).1.isEmpty then 0
                          else s.index % ((generate_asset_list env).1.length : Int) } := by
      simp only [update_playlist]
      rw [if_neg hc]
    rw [he]
    exact ⟨rfl, rfl, rfl, Or.inr rfl⟩

/-- Refresh either leaves the state untouched or performs an update. -/
lemma refresh_playlist_cases (env : Env) (s : SchedulerState) :
    refresh_playlist env s = s ∨ refresh_playlist env s = update_playlist env s := by
  unfold refresh_playlist
  repeat' split
  all_goals first
  | exact Or.inl rfl
  | exact Or.inr rfl

/-- Position bound is preserved by `update_playlist`. -/
lemma schedInv_update (env : Env) (s : SchedulerState) (h : SchedInv s) :
    SchedInv (update_playlist env s) := by
  rcases (update_playlist_eq env s).2.2.2 with heq | heq
  · rw [heq]
    exact ⟨h.1, h.2⟩
  · rw [heq]
    constructor
    · intro he
      simp only at he ⊢
      simp [he]
    · intro hne
      simp only at hne ⊢
      have hie : (generate_asset_list env).1.isEmpty = false := by
        simp [List.isEmpty_iff, hne]
      have hlen : (0 : Int) < ((generate_asset_list env).1.length : Int) := by
        exact_mod_cast List.length_pos.mpr hne
      rw [hie]
      simp only [Bool.false_eq_true, if_false]
      exact ⟨Int.emod_nonneg _ (ne_of_gt hlen), Int.emod_lt_of_pos _ hlen⟩

/-- Position bound is preserved by `refresh_playlist`. -/
lemma schedInv_refresh (env : Env) (s : SchedulerState) (h : SchedInv s) :
    SchedInv (refresh_playlist env s) := by
  rcases refresh_playlist_cases env s with h1 | h1
  · rw [h1]; exact h
  · rw [h1]; exact schedInv_update env s h

/-- Position bound is preserved by the rotation step, and the rotation of a
non-empty playlist always reads a valid slot and returns an asset. -/
lemma advance_inv (sh : Bool) (t : SchedulerState) (h : SchedInv t) :
    SchedInv ((advance sh t).1) ∧
    ((advance sh t).1.assets ≠ [] → ((advance sh t).2).isSome = true) := by
  by_cases hemp : t.assets = []
  · have hie : t.assets.isEmpty = true := by simp [List.isEmpty_iff, hemp]
    unfold advance
    simp only [hie, if_true]
    exact ⟨⟨fun _ => h.1 hemp, fun hne => absurd hemp hne⟩, fun hne => absurd hemp hne⟩
  · have hne : t.assets.isEmpty = false := by simp [List.isEmpty_iff, hemp]
    have hlen : (0 : Int) < (t.assets.length : Int) := by
      exact_mod_cast List.length_pos.mpr hemp
    by_cases hrev : t.reverse = true
    · have hidxb : ((t.index - 2) % (t.assets.length : Int)).toNat < t.assets.length := by
        rw [Int.toNat_lt (Int.emod_nonneg _ (ne_of_gt hlen))]
        exact Int.emod_lt_of_pos _ hlen
      obtain ⟨a, ha⟩ : ∃ x, t.assets[((t.index - 2) % (t.assets.length : Int)).toNat]? = some x :=
        ⟨_, List.getElem?_eq_getElem hidxb⟩
      rw [advance_reverse sh t a hne hrev ha]
      refine ⟨⟨fun habs => absurd habs hemp, fun _ => ?_⟩, fun _ => rfl⟩
      exact ⟨Int.emod_nonneg _ (ne_of_gt hlen), Int.emod_lt_of_pos _ hlen⟩
    · have hrev2 : t.reverse = false := by
        cases hb : t.reverse
        · rfl
        · exact absurd hb hrev
      have hidxb : t.index.toNat < t.assets.length := by
        obtain ⟨hge, hlt⟩ := h.2 hemp
        rw [Int.toNat_lt hge]
        exact hlt
      obtain ⟨a, ha⟩ : ∃ x, t.assets[t.index.toNat]? = some x :=
        ⟨_, List.getElem?_eq_getElem hidxb⟩
      rw [advance_forward sh t a hne hrev2 ha]
      refine ⟨⟨fun habs => absurd habs hemp, fun _ => ?_⟩, fun _ => rfl⟩
      exact ⟨Int.emod_nonneg _ (ne_of_gt hlen), Int.emod_lt_of_pos _ hlen⟩

/-- Position bound is preserved by the normal selection path, which returns an
asset whenever the refreshed playlist is non-empty. -/
lemma normal_next_inv (env : Env) (s : SchedulerState) (h : SchedInv s) :
    SchedInv ((normal_next env s).1) ∧
    ((normal_next env s).1.assets ≠ [] → ((normal_next env s).2).isSome = true) := by
  unfold normal_next
  exact advance_inv env.shuffle_playlist (refresh_playlist env s) (schedInv_refresh env s h)

/-- Position bound is preserved by `get_next_asset`, which returns an asset
whenever the resulting playlist is non-empty. -/
lemma get_next_inv (env : Env) (s : SchedulerState) (h : SchedInv s) :
    SchedInv ((get_next_asset env s).1) ∧
    ((get_next_asset env s).1.assets ≠ [] → ((get_next_asset env s).2).isSome = true) := by
  cases hx : s.extra_asset with
  | none =>
    simp only [get_next_asset, hx]
    exact normal_next_inv env s h
  | some eid =>
    cases hl : get_specific_asset env eid with
    | none =>
      simp only [get_next_asset, hx, hl]
      exact normal_next_inv env _ ⟨h.1, h.2⟩
    | some a =>
      by_cases hp : (a.is_processing == 0) = true
      · simp only [get_next_asset, hx, hl, hp, if_true]
        exact ⟨⟨h.1, h.2⟩, fun _ => rfl⟩
      · simp only [get_next_asset, hx, hl, eq_false_of_ne_true hp, Bool.false_eq_true, if_false]
        exact normal_next_inv env _ ⟨h.1, h.2⟩

/-- C10: starting from a state satisfying the position-bound invariant, every
scheduler operation (construction, update, refresh, next-asset) preserves it,
and the rotation's playlist access never falls off the list: whenever the
playlist is non-empty after the call, an asset was read and returned. -/
theorem c10_position_in_bounds (env : Env) (s : SchedulerState) (h : SchedInv s) :
    SchedInv (scheduler_init env) ∧
    SchedInv (update_playlist env s) ∧
    SchedInv (refresh_playlist env s) ∧
    SchedInv ((get_next_asset env s).1) ∧
    ((get_next_asset env s).1.assets ≠ [] → ((get_next_asset env s).2).isSome = true) := by
  have hinit : SchedInv initState := ⟨fun _ => rfl, fun hne => absurd rfl hne⟩
  obtain ⟨h4, h5⟩ := get_next_inv env s h
  exact ⟨schedInv_update env initState hinit, schedInv_update env s h,
    schedInv_refresh env s h, h4, h5⟩

/-- Witness for C10 at the two-asset fixture state. -/
theorem c10_witness :
    SchedInv (scheduler_init envNoShuffle) ∧
    SchedInv ((get_next_asset envNoShuffle stateAB).1) ∧
    ((get_next_asset envNoShuffle stateAB).2).isSome = true := by
  have hinv : SchedInv stateAB :=
    ⟨fun hemp => absurd hemp (by decide), fun _ => ⟨by decide, by decide⟩⟩
  have h := c10_position_in_bounds envNoShuffle stateAB hinv
  have hne : (get_next_asset envNoShuffle stateAB).1.assets ≠ [] := by decide
  exact ⟨h.1, h.2.2.2.1, h.2.2.2.2 hne⟩

/-- Refresh is a no-op when the store is unmodified, the counter has not
reached the shuffle threshold, and the deadline has not passed. -/
lemma refresh_no_change (env : Env) (s : SchedulerState)
    (hdb : env.db_mtime ≤ s.last_update_db_mtime)
    (hc : env.shuffle_playlist = false ∨ s.counter < 5)
    (hdl : ∀ d, s.deadline = some d → env.time < d) :
    refresh_playlist env s = s := by
  unfold refresh_playlist
  rw [if_neg (by omega : ¬ s.last_update_db_mtime < env.db_mtime)]
  have h2 : (env.shuffle_playlist && decide (5 ≤ s.counter)) = false := by
    rcases hc with h | h
    · simp [h]
    · simp [Nat.not_le.mpr h]
  simp only [h2, Bool.false_eq_true, if_false]
  cases hd : s.deadline with
  | none => rfl
  | some d =>
    show (if d ≤ env.time then update_playlist env s else s) = s
    rw [if_neg (not_le.mpr (hdl d hd))]

/-- Refresh regenerates when shuffling with the counter at the threshold. -/
lemma refresh_counter_due (env : Env) (t : SchedulerState)
    (hdb : env.db_mtime ≤ t.last_update_db_mtime)
    (hsh : env.shuffle_playlist = true) (hct : 5 ≤ t.counter) :
    refresh_playlist env t = update_playlist env t := by
  unfold refresh_playlist
  rw [if_neg (by omega : ¬ t.last_update_db_mtime < env.db_mtime)]
  have hbool : (env.shuffle_playlist && decide (5 ≤ t.counter)) = true := by
    rw [hsh]
    simp [hct]
  rw [if_pos hbool]

/-- Division bookkeeping for cycle counting. -/
lemma nat_div_shift (n a m : Nat) (hn : 0 < n) :
    a / n + (a % n + m) / n = (a + m) / n := by
  conv_rhs => rw [← Nat.div_add_mod a n]
  rw [Nat.add_assoc, Nat.mul_add_div hn]

/-- Single quiescent forward call of `get_next_asset`: returns the asset at the
current position, advances the position by one mod the length, and increments
the counter exactly when shuffling and the new position is 0. -/
lemma get_next_step (env : Env) (s : SchedulerState) (i : Nat)
    (hq : refresh_playlist env s = s)
    (hextra : s.extra_asset = none) (hrev : s.reverse = false)
    (hidx : s.index = (i : Int)) (hin : i < s.assets.length) :
    get_next_asset env s =
      ({ s with
          index := (((i + 1) % s.assets.length : Nat) : Int),
          counter := if env.shuffle_playlist && ((i + 1) % s.assets.length == 0)
                     then s.counter + 1 else s.counter,
          current_asset_id := some ((s.assets.get ⟨i, hin⟩).asset_id) },
        some (s.assets.get ⟨i, hin⟩)) := by
  have hne0 : s.assets ≠ [] := List.ne_nil_of_length_pos (lt_of_le_of_lt (Nat.zero_le i) hin)
  have hne : s.assets.isEmpty = false := by
    simp [List.isEmpty_iff, hne0]
  have hget : s.assets[s.index.toNat]? = some (s.assets.get ⟨i, hin⟩) := by
    rw [hidx]
    simp [List.getElem?_eq_getElem hin]
  have hmain : get_next_asset env s = advance env.shuffle_playlist s := by
    simp only [get_next_asset, hextra, normal_next, hq]
  rw [hmain, advance_forward env.shuffle_playlist s _ hne hrev hget]
  have hidx2 : (s.index + 1) % (s.assets.length : Int)
      = (((i + 1) % s.assets.length : Nat) : Int) := by
    rw [hidx, Int.ofNat_emod]
    push_cast
    rfl
  have hcond : ((((i + 1) % s.assets.length : Nat) : Int) == (0 : Int))
      = ((i + 1) % s.assets.length == 0) := by
    by_cases h : (i + 1) % s.assets.length = 0
    · simp [h]
    · have h1 : ((((i + 1) % s.assets.length : Nat) : Int) == (0 : Int)) = false :=
        beq_eq_false_iff_ne.mpr (fun hh => h (by exact_mod_cast hh))
      have h2 : (((i + 1) % s.assets.length) == 0) = false := by
        simp [h]
      rw [h1, h2]
  rw [hidx2, hcond]

/-- Quiescent iteration of `get_next_asset`: with the store unmodified, the
deadline unexpired and the counter below the shuffle threshold at every call,
k calls starting at position i rotate the position by k slots mod the playlist
length, count one full cycle per wrap (in shuffle mode only), keep the
playlist and flags intact, and return the playlist entries in order from
position i. -/
lemma run_sched_quiet (env : Env) (k : Nat) :
    ∀ (s : SchedulerState) (i : Nat),
    env.db_mtime ≤ s.last_update_db_mtime →
    (∀ d, s.deadline = some d → env.time < d) →
    s.extra_asset = none → s.reverse = false →
    s.index = (i : Int) → i < s.assets.length →
    (env.shuffle_playlist = true →
      ∀ m, m < k → s.counter + (i + m) / s.assets.length < 5) →
    ((run_sched env s k).1.assets = s.assets ∧
     (run_sched env s k).1.counter
       = s.counter + (if env.shuffle_playlist = true then (i + k) / s.assets.length else 0) ∧
     (run_sched env s k).1.index = (((i + k) % s.assets.length : Nat) : Int) ∧
     (run_sched env s k).1.deadline = s.deadline ∧
     (run_sched env s k).1.extra_asset = none ∧
     (run_sched env s k).1.reverse = false ∧
     (run_sched env s k).1.last_update_db_mtime = s.last_update_db_mtime) ∧
    (run_sched env s k).2
      = (List.range k).map (fun j => s.assets[((i + j) % s.assets.length)]?) := by
  induction k with
  | zero =>
    intro s i hdb hdl hextra hrev hidx hin hcnt
    refine ⟨⟨rfl, ?_, ?_, rfl, hextra, hrev, rfl⟩, rfl⟩
    · have h00 : (i + 0) / s.assets.length = 0 := by
        rw [Nat.add_zero]
        exact Nat.div_eq_of_lt hin
      rw [h00]
      simp [run_sched]
    · rw [Nat.add_zero, Nat.mod_eq_of_lt hin]
      exact hidx
  | succ k ih =>
    intro s i hdb hdl hextra hrev hidx hin hcnt
    have hn0 : 0 < s.assets.length := lt_of_le_of_lt (Nat.zero_le i) hin
    have hq : refresh_playlist env s = s := by
      refine refresh_no_change env s hdb ?_ hdl
      cases hsh : env.shuffle_playlist with
      | false => exact Or.inl rfl
      | true =>
        right
        have h5 := hcnt hsh 0 (Nat.succ_pos k)
        rwa [Nat.add_zero, Nat.div_eq_of_lt hin, Nat.add_zero] at h5
    have hstep := get_next_step env s i hq hextra hrev hidx hin
    have hcounterN :
        (if env.shuffle_playlist && ((i + 1) % s.assets.length == 0)
         then s.counter + 1 else s.counter)
        = s.counter + (if env.shuffle_playlist = true then (i + 1) / s.assets.length else 0) := by
      cases hsh : env.shuffle_playlist with
      | false => simp
      | true =>
        by_cases hz : (i + 1) % s.assets.length = 0
        · have hne2 : i + 1 = s.assets.length := by
            rcases Nat.lt_or_ge (i + 1) s.assets.length with hlt | hge
            · rw [Nat.mod_eq_of_lt hlt] at hz
              omega
            · omega
          simp [hz, hne2, Nat.div_self hn0]
        · have hlt : i + 1 < s.assets.length := by
            rcases Nat.lt_or_ge (i + 1) s.assets.length with hlt | hge
            · exact hlt
            · exfalso
              have he : i + 1 = s.assets.length := by omega
              exact hz (by rw [he, Nat.mod_self])
          simp [hz, Nat.div_eq_of_lt hlt]
    have hcntN : env.shuffle_playlist = true →
        ∀ m, m < k →
          (if env.shuffle_playlist && ((i + 1) % s.assets.length == 0)
           then s.counter + 1 else s.counter)
            + ((i + 1) % s.assets.length + m) / s.assets.length < 5 := by
      intro hsh m hm
      rw [hcounterN]
      simp only [hsh, if_true]
      rw [Nat.add_assoc, nat_div_shift s.assets.length (i + 1) m hn0]
      have harr : i + 1 + m = i + (m + 1) := by omega
      rw [harr]
      exact hcnt hsh (m + 1) (Nat.succ_lt_succ hm)
    have ihres := ih
      ({ s with
          index := (((i + 1) % s.assets.length : Nat) : Int),
          counter := if env.shuffle_playlist && ((i + 1) % s.assets.length == 0)
                     then s.counter + 1 else s.counter,
          current_asset_id := some ((s.assets.get ⟨i, hin⟩).asset_id) })
      ((i + 1) % s.assets.length) hdb hdl hextra hrev rfl (Nat.mod_lt _ hn0) hcntN
    obtain ⟨⟨ha2, hct2, hix2, hdl2, hex2, hrv2, hdb2⟩, hout2⟩ := ihres
    have hrun : run_sched env s (k + 1)
        = ((run_sched env
            ({ s with
                index := (((i + 1) % s.assets.length : Nat) : Int),
                counter := if env.shuffle_playlist && ((i + 1) % s.assets.length == 0)
                           then s.counter + 1 else s.counter,
                current_asset_id := some ((s.assets.get ⟨i, hin⟩).asset_id) }) k).1,
           some (s.assets.get ⟨i, hin⟩) ::
            (run_sched env
              ({ s with
                  index := (((i + 1) % s.assets.length : Nat) : Int),
                  counter := if env.shuffle_playlist && ((i + 1) % s.assets.length == 0)
                             then s.counter + 1 else s.counter,
                  current_asset_id := some ((s.assets.get ⟨i, hin⟩).asset_id) }) k).2) := by
      simp only [run_sched]
      rw [hstep]
    rw [hrun]
    refine ⟨⟨ha2, ?_, ?_, hdl2, hex2, hrv2, hdb2⟩, ?_⟩
    · rw [hct2, hcounterN]
      cases hsh : env.shuffle_playlist with
      | false => simp
      | true =>
        simp only [hsh, if_true]
        rw [Nat.add_assoc, nat_div_shift s.assets.length (i + 1) k hn0]
        congr 1
        congr 1
        omega
    · rw [hix2]
      congr 1
      rw [Nat.mod_add_mod]
      congr 1
      omega
    · show some (s.assets.get ⟨i, hin⟩) ::
          (run_sched env
            ({ s with
                index := (((i + 1) % s.assets.length : Nat) : Int),
                counter := if env.shuffle_playlist && ((i + 1) % s.assets.length == 0)
                           then s.counter + 1 else s.counter,
                current_asset_id := some ((s.assets.get ⟨i, hin⟩).asset_id) }) k).2 = _
      rw [hout2, List.range_succ_eq_map, List.map_cons, List.map_map]
      congr 1
      · show some (s.assets.get ⟨i, hin⟩) = s.assets[((i + 0) % s.assets.length)]?
        rw [Nat.add_zero, Nat.mod_eq_of_lt hin, List.getElem?_eq_getElem hin]
        rfl
      · apply List.map_congr_left
        intro j hj
        show s.assets[(((i + 1) % s.assets.length + j) % s.assets.length)]?
          = s.assets[((i + Nat.succ j) % s.assets.length)]?
        congr 1
        rw [Nat.mod_add_mod]
        congr 1
        omega

/-- Reading a list at 0, 1, ..., length−1 reproduces the list. -/
lemma range_map_getElem? {α : Type} (l : List α) :
    (List.range l.length).map (fun j => l[j]?) = l.map some := by
  induction l with
  | nil => rfl
  | cons a t ih =>
    rw [List.length_cons, List.range_succ_eq_map, List.map_cons, List.map_map, List.map_cons]
    congr 1
    · rw [List.getElem?_cons_zero]
    · rw [← ih]
      apply List.map_congr_left
      intro j hj
      show (a :: t)[Nat.succ j]? = t[j]?
      rw [List.getElem?_cons_succ]

/-- C1: with shuffle disabled and a quiescent environment (store unmodified,
deadline unexpired), n calls of `get_next_asset` on an n-asset playlist
starting at position 0 return each asset exactly once in playlist (store)
order, and the (n+1)-th call returns the first asset again. -/
theorem c1_rotation_in_store_order (env : Env) (s : SchedulerState)
    (hshuffle : env.shuffle_playlist = false)
    (hdb : env.db_mtime ≤ s.last_update_db_mtime)
    (hdl : ∀ d, s.deadline = some d → env.time < d)
    (hextra : s.extra_asset = none) (hrev : s.reverse = false)
    (hidx : s.index = 0) (hne : s.assets ≠ []) :
    (run_sched env s s.assets.length).2 = s.assets.map some ∧
    (run_sched env s (s.assets.length + 1)).2 = s.assets.map some ++ [s.assets[0]?] := by
  have hn0 : 0 < s.assets.length := List.length_pos.mpr hne
  have hnosh : ∀ kk : Nat, env.shuffle_playlist = true →
      ∀ m, m < kk → s.counter + (0 + m) / s.assets.length < 5 :=
    fun _ hsh => absurd hsh (by rw [hshuffle]; exact Bool.false_ne_true)
  have hsame : ∀ j ∈ List.range s.assets.length,
      s.assets[((0 + j) % s.assets.length)]? = s.assets[j]? := by
    intro j hj
    rw [List.mem_range] at hj
    rw [Nat.zero_add, Nat.mod_eq_of_lt hj]
  obtain ⟨_, hout1⟩ := run_sched_quiet env s.assets.length s 0 hdb hdl hextra hrev
    (by exact_mod_cast hidx) hn0 (hnosh s.assets.length)
  obtain ⟨_, hout2⟩ := run_sched_quiet env (s.assets.length + 1) s 0 hdb hdl hextra hrev
    (by exact_mod_cast hidx) hn0 (hnosh (s.assets.length + 1))
  constructor
  · rw [hout1, List.map_congr_left hsame, range_map_getElem?]
  · rw [hout2, List.range_succ, List.map_append, List.map_congr_left hsame,
      range_map_getElem?]
    congr 1
    rw [List.map_cons, List.map_nil]
    congr 1
    rw [Nat.zero_add, Nat.mod_self]

/-- Witness for C1 at the two-asset fixture: two calls return A then B, a
third call returns A again. -/
theorem c1_witness :
    (run_sched envNoShuffle stateAB stateAB.assets.length).2 = stateAB.assets.map some ∧
    (run_sched envNoShuffle stateAB (stateAB.assets.length + 1)).2 =
      stateAB.assets.map some ++ [stateAB.assets[0]?] :=
  c1_rotation_in_store_order envNoShuffle stateAB rfl (le_refl 0)
    (fun _ hd => nomatch hd) rfl rfl rfl (by decide)

/-- C5: with shuffle enabled and the store unmodified (and the deadline
unexpired), starting from a fresh rotation (position 0, counter 0) over a
non-empty n-asset playlist, the playlist is untouched and the counter counts
exactly the completed full cycles (m/n after m calls); every refresh within
the first 5n calls is a no-op, and the refresh of the (5n+1)-th call
regenerates. -/
theorem c5_shuffle_reroll (env : Env) (s : SchedulerState)
    (hshuffle : env.shuffle_playlist = true)
    (hdb : env.db_mtime ≤ s.last_update_db_mtime)
    (hdl : ∀ d, s.deadline = some d → env.time < d)
    (hextra : s.extra_asset = none) (hrev : s.reverse = false)
    (hidx : s.index = 0) (hcounter : s.counter = 0) (hne : s.assets ≠ []) :
    (∀ m, m ≤ 5 * s.assets.length →
      (run_sched env s m).1.assets = s.assets ∧
      (run_sched env s m).1.counter = m / s.assets.length ∧
      (run_sched env s m).1.index = ((m % s.assets.length : Nat) : Int)) ∧
    (∀ m, m < 5 * s.assets.length →
      refresh_playlist env (run_sched env s m).1 = (run_sched env s m).1) ∧
    refresh_playlist env (run_sched env s (5 * s.assets.length)).1 =
      update_playlist env (run_sched env s (5 * s.assets.length)).1 := by
  have hn0 : 0 < s.assets.length := List.length_pos.mpr hne
  have hfacts : ∀ m, m ≤ 5 * s.assets.length →
      (run_sched env s m).1.assets = s.assets ∧
      (run_sched env s m).1.counter = m / s.assets.length ∧
      (run_sched env s m).1.index = ((m % s.assets.length : Nat) : Int) ∧
      (run_sched env s m).1.deadline = s.deadline ∧
      (run_sched env s m).1.extra_asset = none ∧
      (run_sched env s m).1.reverse = false ∧
      (run_sched env s m).1.last_update_db_mtime = s.last_update_db_mtime := by
    intro m hm
    have hcnt : env.shuffle_playlist = true →
        ∀ m2, m2 < m → s.counter + (0 + m2) / s.assets.length < 5 := by
      intro _ m2 hm2
      rw [hcounter, Nat.zero_add, Nat.zero_add]
      rw [Nat.div_lt_iff_lt_mul hn0]
      omega
    obtain ⟨⟨h1, h2, h3, h4, h5, h6, h7⟩, _⟩ :=
      run_sched_quiet env m s 0 hdb hdl hextra hrev (by exact_mod_cast hidx) hn0 hcnt
    refine ⟨h1, ?_, ?_, h4, h5, h6, h7⟩
    · rw [h2, hcounter, hshuffle]
      simp
    · rw [h3, Nat.zero_add]
  refine ⟨fun m hm => ?_, fun m hm => ?_, ?_⟩
  · obtain ⟨h1, h2, h3, _, _, _, _⟩ := hfacts m hm
    exact ⟨h1, h2, h3⟩
  · obtain ⟨h1, h2, h3, h4, h5, h6, h7⟩ := hfacts m (le_of_lt hm)
    apply refresh_no_change
    · rw [h7]
      exact hdb
    · right
      rw [h2]
      rw [Nat.div_lt_iff_lt_mul hn0]
      omega
    · intro d hd
      rw [h4] at hd
      exact hdl d hd
  · obtain ⟨h1, h2, h3, h4, h5, h6, h7⟩ := hfacts (5 * s.assets.length) (le_refl _)
    apply refresh_counter_due
    · rw [h7]
      exact hdb
    · exact hshuffle
    · rw [h2, Nat.mul_div_cancel _ hn0]

/-- Witness for C5 at a one-asset playlist with shuffle on: after 3 calls the
counter holds 3 completed cycles, the refresh within each of the first 5 calls
is a no-op, and the refresh of the 6th call regenerates. -/
theorem c5_witness :
    (run_sched envShuffle stateA1 3).1.counter = 3 ∧
    refresh_playlist envShuffle (run_sched envShuffle stateA1 4).1 =
      (run_sched envShuffle stateA1 4).1 ∧
    refresh_playlist envShuffle (run_sched envShuffle stateA1 5).1 =
      update_playlist envShuffle (run_sched envShuffle stateA1 5).1 := by
  have h := c5_shuffle_reroll envShuffle stateA1 rfl (le_refl 0)
    (fun _ hd => nomatch hd) rfl rfl rfl rfl (by decide)
  refine ⟨?_, ?_, ?_⟩
  · have h3 := (h.1 3 (by decide)).2.1
    simpa using h3
  · exact h.2.1 4 (by decide)
  · exact h.2.2

/-- The deadline of `generate_asset_list` is the minimum of the per-asset
deadline terms over the whole store. -/
lemma generate_deadline_eq_min? (env : Env) :
    (generate_asset_list env).2 = (env.store.map (deadline_of env.time)).min? := by
  simp only [generate_asset_list]
  by_cases h : 0 < (env.store.map (deadline_of env.time)).length
  · rw [if_pos h, head?_insertionSort_eq_min?]
  · rw [if_neg h]
    have hmt : env.store.map (deadline_of env.time) = [] := by
      cases hm : env.store.map (deadline_of env.time) with
      | nil => rfl
      | cons x xs => rw [hm] at h; simp at h
    rw [hmt]
    rfl

/-- The playlist of `generate_asset_list` is the active filter of the store,
permuted when shuffle is configured. -/
lemma generate_playlist_eq (env : Env) :
    (generate_asset_list env).1 =
      (if env.shuffle_playlist then env.perm (env.store.filter (fun a => is_active a env.time))
       else env.store.filter (fun a => is_active a env.time)) := rfl

/-- Refresh performs an update whenever the stored deadline has passed
(whatever the other two triggers say). -/
lemma refresh_due (env : Env) (s : SchedulerState) (d0 : Int)
    (hd0 : s.deadline = some d0) (hle : d0 ≤ env.time) :
    refresh_playlist env s = update_playlist env s := by
  unfold refresh_playlist
  split
  · rfl
  · split
    · rfl
    · rw [hd0]
      show (if d0 ≤ env.time then update_playlist env s else s) = update_playlist env s
      rw [if_pos hle]

/-- Rotation over an empty playlist returns nothing and only clears the
current asset id. -/
lemma advance_empty (sh : Bool) (t : SchedulerState) (h : t.assets = []) :
    advance sh t = ({ t with current_asset_id := none }, none) := by
  have hie : t.assets.isEmpty = true := by simp [h]
  unfold advance
  simp only [hie, if_true]

/-- C7 counterexample: at time 0, asset A is in the store, is active, and its
window ends at T = 100, but the generated deadline is 50 (asset C's start), so
before T the scheduler's deadline does not equal T. -/
theorem c7_counterexample :
    assetA ∈ envNoShuffle.store ∧
    is_active assetA envNoShuffle.time = true ∧
    assetA.end_date = 100 ∧
    (generate_asset_list envNoShuffle).2 = some 50 ∧
    (generate_asset_list envNoShuffle).2 ≠ some assetA.end_date := by
  refine ⟨by decide, by decide, rfl, by decide, by decide⟩

/-- C7 (amended): the generated deadline is at most the end timestamp of every
asset active at generation time (it can be strictly earlier); and on a call
with no override pending whose stored deadline has passed, every asset whose
window has ended by the call time is excluded from the refreshed playlist and
is not returned (the position-bound invariant of the state is assumed, as
maintained by every operation). -/
theorem c7_deadline_refresh (env : Env) (s : SchedulerState) (a : Asset)
    (hperm : ∀ l, (env.perm l).Perm l) (hinv : SchedInv s) :
    (a ∈ env.store → is_active a env.time = true →
      ∃ d, (generate_asset_list env).2 = some d ∧ d ≤ a.end_date) ∧
    (s.extra_asset = none →
      (∃ d0, s.deadline = some d0 ∧ d0 ≤ env.time) →
      a.end_date ≤ env.time →
      a ∉ (get_next_asset env s).1.assets ∧
      (∀ x, (get_next_asset env s).2 = some x → x ≠ a)) := by
  constructor
  · intro hmem hact
    have hd := generate_deadline_eq_min? env
    have hmem2 : deadline_of env.time a ∈ env.store.map (deadline_of env.time) :=
      List.mem_map_of_mem _ hmem
    cases hmin : (env.store.map (deadline_of env.time)).min? with
    | none =>
      rw [List.min?_eq_none_iff] at hmin
      rw [hmin] at hmem2
      cases hmem2
    | some m =>
      have hchar := int_min?_eq_some_iff.mp hmin
      refine ⟨m, by rw [hd, hmin], ?_⟩
      have hle := hchar.2 _ hmem2
      rw [deadline_of, if_pos hact] at hle
      exact hle
  · intro hextra hdue hend
    obtain ⟨d0, hd0, hd0le⟩ := hdue
    have hmain : get_next_asset env s
        = advance env.shuffle_playlist (update_playlist env s) := by
      simp only [get_next_asset, hextra, normal_next, refresh_due env s d0 hd0 hd0le]
    have hnm : a ∉ (update_playlist env s).assets := by
      rw [(update_playlist_eq env s).1, generate_playlist_eq]
      intro hmem
      have hmem2 : a ∈ env.store.filter (fun x => is_active x env.time) := by
        cases hs : env.shuffle_playlist with
        | true =>
          rw [hs] at hmem
          simp only [if_true] at hmem
          exact (hperm _).mem_iff.mp hmem
        | false =>
          rw [hs] at hmem
          simpa using hmem
      have hact := (List.mem_filter.mp hmem2).2
      simp only [is_active, Bool.and_eq_true, decide_eq_true_eq, beq_iff_eq] at hact
      omega
    have hinv2 : SchedInv (update_playlist env s) := schedInv_update env s hinv
    set t := update_playlist env s with ht
    by_cases hemp : t.assets = []
    · rw [hmain, advance_empty env.shuffle_playlist t hemp]
      refine ⟨by simp [hemp], fun x hx => nomatch hx⟩
    · have hne : t.assets.isEmpty = false := by
        simp [List.isEmpty_iff, hemp]
      have hlen : (0 : Int) < (t.assets.length : Int) := by
        exact_mod_cast List.length_pos.mpr hemp
      cases hr : t.reverse with
      | true =>
        have hb : ((t.index - 2) % (t.assets.length : Int)).toNat < t.assets.length := by
          rw [Int.toNat_lt (Int.emod_nonneg _ (ne_of_gt hlen))]
          exact Int.emod_lt_of_pos _ hlen
        obtain ⟨e, he⟩ :
            ∃ x, t.assets[((t.index - 2) % (t.assets.length : Int)).toNat]? = some x :=
          ⟨_, List.getElem?_eq_getElem hb⟩
        rw [hmain, advance_reverse env.shuffle_playlist t e hne hr he]
        refine ⟨hnm, fun x hx => ?_⟩
        have hex : e = x := by simpa using hx
        intro hxa
        apply hnm
        rw [← hxa, ← hex]
        exact List.getElem?_mem he
      | false =>
        have hb : t.index.toNat < t.assets.length := by
          obtain ⟨hge, hlt⟩ := hinv2.2 hemp
          rw [Int.toNat_lt hge]
          exact hlt
        obtain ⟨e, he⟩ : ∃ x, t.assets[t.index.toNat]? = some x :=
          ⟨_, List.getElem?_eq_getElem hb⟩
        rw [hmain, advance_forward env.shuffle_playlist t e hne hr he]
        refine ⟨hnm, fun x hx => ?_⟩
        have hex : e = x := by simpa using hx
        intro hxa
        apply hnm
        rw [← hxa, ← hex]
        exact List.getElem?_mem he

/-- Witness for C7: on the three-asset store, the deadline is bounded by the
active asset A's end; and the ended asset is dropped and not returned by the
call whose stored deadline (−1) has passed. -/
theorem c7_witness :
    (∃ d, (generate_asset_list envNoShuffle).2 = some d ∧ d ≤ assetA.end_date) ∧
    assetEnded ∉ (get_next_asset envNoShuffle stateEnded).1.assets ∧
    (get_next_asset envNoShuffle stateEnded).2 ≠ some assetEnded := by
  have hinv : SchedInv stateEnded :=
    ⟨fun he => absurd he (by decide), fun _ => ⟨by decide, by decide⟩⟩
  have h1 := (c7_deadline_refresh envNoShuffle stateEnded assetA
    (fun l => List.Perm.refl l) hinv).1 (by decide) (by decide)
  have h2 := (c7_deadline_refresh envNoShuffle stateEnded assetEnded
    (fun l => List.Perm.refl l) hinv).2 rfl ⟨-1, rfl, by decide⟩ (by decide)
  exact ⟨h1, h2.1, fun hx => h2.2 assetEnded hx rfl⟩
